import Mathlib

/-!
Verification development for the NYT sentiment index construction engine
(`create_index.py`).  Dates are modelled as natural-number day indices;
pandas missing values (NaN) are modelled with `Option`; real-valued columns
are modelled with `ℚ`.  Calendar months are abstracted by a function
`cal : Nat → Nat` sending a day to the first day of its month.
-/

namespace NewsIndex

/-- One classified headline record: the date portion of its timestamp
(as a day index), the headline text, the topic assigned by the model
(column `model topic`) and the sentiment label (column `sentiment`). -/
structure HeadlineRecord where
  day : Nat
  headline : String
  modelTopic : String
  sentiment : String
deriving DecidableEq, Repr

/-- Number of maximal whitespace-free runs in a character list; `inTok`
records whether the previous character was inside a token. -/
def tokenCount (inTok : Bool) : List Char → Nat
  | [] => 0
  | c :: cs =>
      if c.isWhitespace then tokenCount false cs
      else (if inTok then 0 else 1) + tokenCount true cs

/-- Number of whitespace-separated tokens of a string: the length of
Python's `str.split()` (which drops empty chunks). -/
def wordCount (s : String) : Nat := tokenCount false s.data

/-- Python's `str.endswith`: does `t` occur as a final segment of `s`? -/
def strEndsWith (s t : String) : Bool := t.data.isSuffixOf s.data

/-- Model of `_filter_headlines`: keep records whose `model topic` is `"Economics"`
and whose headline has at least 3 whitespace-separated words. -/
def filter_headlines (rs : List HeadlineRecord) : List HeadlineRecord :=
  (rs.filter (fun r => r.modelTopic = "Economics")).filter
    (fun r => 3 ≤ wordCount r.headline)

/-- Per-day sentiment label counts (`__count_num_labels_per_day` output row). -/
structure DayCounts where
  day : Nat
  negative : Nat
  neutral : Nat
  positive : Nat
deriving DecidableEq, Repr

/-- Number of records carrying a given sentiment label. -/
def countLabel (l : String) (rs : List HeadlineRecord) : Nat :=
  (rs.filter (fun r => r.sentiment = l)).length

/-- The distinct days occurring in a record list, ascending
(`groupby(df.index.date)` groups, then `sort_index()`). -/
def daysOf (rs : List HeadlineRecord) : List Nat :=
  ((rs.map (fun r => r.day)).dedup).insertionSort (· ≤ ·)

/-- Model of `__count_num_labels_per_day`: group records by calendar day and count the
occurrences of each of the three sentiment labels; sorted ascending by day. -/
def count_num_labels_per_day (rs : List HeadlineRecord) : List DayCounts :=
  (daysOf rs).map (fun d =>
    let onDay := rs.filter (fun r => r.day = d)
    { day := d
      negative := countLabel "Negative" onDay
      neutral := countLabel "Neutral" onDay
      positive := countLabel "Positive" onDay })

/-- A sparse (pre-resampling) index row: integer counts, `total`, and the raw
index value, `none` when the pandas division yields NaN. -/
structure RawRow where
  day : Nat
  negative : Nat
  neutral : Nat
  positive : Nat
  total : Nat
  index_value : Option ℚ
deriving DecidableEq, Repr

/-- The quotient `(positive - negative) / (positive + negative)` with pandas semantics:
`0/0` is NaN (here `none`); the counts are non-negative so the denominator is
zero exactly when both counts are zero. -/
def rawIndexValue (neg pos : Nat) : Option ℚ :=
  if pos + neg = 0 then none
  else some (((pos : ℚ) - (neg : ℚ)) / ((pos : ℚ) + (neg : ℚ)))

/-- The sparse per-day rows computed by `_format_to_index` before
`__resample_to_day` runs: `total = df.sum(axis=1)` over the three count
columns and the raw index value. -/
def formatRaw (rs : List HeadlineRecord) : List RawRow :=
  (count_num_labels_per_day rs).map (fun c =>
    { day := c.day
      negative := c.negative
      neutral := c.neutral
      positive := c.positive
      total := c.negative + c.neutral + c.positive
      index_value := rawIndexValue c.negative c.positive })

/-- Pandas `rolling(w, min_periods=1).mean()` at position `i`: the mean of the
defined values among the last `w` entries ending at position `i`; `none`
when every entry in the window is undefined. -/
def windowMean (w : Nat) (xs : List (Option ℚ)) (i : Nat) : Option ℚ :=
  let window := (xs.take (i + 1)).drop (i + 1 - w)
  let vals := window.filterMap id
  if vals.length = 0 then none else some (vals.sum / (vals.length : ℚ))

/-- Position of the last entry of `days` that is `≤ d` (days ascending).
Models the pad step of `sma.resample('D').ffill()`. -/
def lastPosLE (days : List Nat) (d : Nat) : Option Nat :=
  ((days.enum.filter (fun p => p.2 ≤ d)).map (fun p => p.1)).getLast?

/-- The forward-filled 365-observation trailing mean at calendar day `d`:
the rolling mean evaluated at the position of the last sparse day `≤ d`.
`none` when that window holds no defined observation. -/
def dailySma (raw : List RawRow) (d : Nat) : Option ℚ :=
  match lastPosLE (raw.map (fun r => r.day)) d with
  | none => none
  | some j => windowMean 365 (raw.map (fun r => r.index_value)) j

/-- A dense (post-resampling) index row; after `fillna` every column is a
defined rational (pandas writes the counts back as floats). -/
structure Row where
  day : Nat
  negative : ℚ
  neutral : ℚ
  positive : ℚ
  total : ℚ
  index_value : ℚ
deriving DecidableEq, Repr

/-- The sparse row of `raw` at day `d`, if any. -/
def origRow (raw : List RawRow) (d : Nat) : Option RawRow :=
  raw.find? (fun x => x.day = d)

/-- The raw index value of the sparse series at day `d` (`none` when the day
is absent or its value is NaN). -/
def origIndexAt (raw : List RawRow) (d : Nat) : Option ℚ :=
  (origRow raw d).bind (fun x => x.index_value)

/-- The dense row produced for day `d`: counts reindexed (0 when the day is
absent), index value filled first from the sparse value, then from the
forward-filled trailing mean (`fillna(sma)`), then 0 (`fillna(0)`). -/
def denseRow (raw : List RawRow) (d : Nat) : Row :=
  match origRow raw d with
  | some x =>
      { day := d
        negative := (x.negative : ℚ)
        neutral := (x.neutral : ℚ)
        positive := (x.positive : ℚ)
        total := (x.total : ℚ)
        index_value :=
          match x.index_value with
          | some q => q
          | none => (dailySma raw d).getD 0 }
  | none =>
      { day := d
        negative := 0
        neutral := 0
        positive := 0
        total := 0
        index_value := (dailySma raw d).getD 0 }

/-- Model of `__resample_to_day`: reindex the sparse series to every calendar day
between its first and last day, filling as in `denseRow`. -/
def resample_to_day (raw : List RawRow) : List Row :=
  match raw.head?, raw.getLast? with
  | some r0, some r1 =>
      (List.range' r0.day (r1.day + 1 - r0.day)).map (fun d => denseRow raw d)
  | _, _ => []

/-- Model of `_format_to_index`: per-day counts, totals, raw index, then resampling. -/
def format_to_index (rs : List HeadlineRecord) : List Row :=
  resample_to_day (formatRaw rs)

/-- Model of `_drop_today_if_in_df` on a non-empty frame: drop the last row when its
date equals the current processing date. -/
def drop_today_if_in_df (today : Nat) (rows : List Row) : List Row :=
  match rows.getLast? with
  | some r => if r.day = today then rows.dropLast else rows
  | none => rows

/-- The uncaught exceptions that can escape the per-batch conversion. -/
inductive RunError where
  | keyError
  | indexError
deriving DecidableEq, Repr

/-- What a batch file parses into: `malformed` when the required columns are
missing (`df['model topic']` raises `KeyError`), otherwise its records
(possibly none at all, the empty-file case). -/
inductive BatchContent where
  | malformed
  | records (rs : List HeadlineRecord)
deriving DecidableEq, Repr

/-- Model of `convert_headlines_df_to_index`: only `AttributeError` (raised when the
file has no rows, so its index is not a `DatetimeIndex`) is caught and turned
into `None`.  A batch missing required columns raises `KeyError`; a batch
whose records all get filtered out reaches `df.index[-1]` on an empty frame
inside `_drop_today_if_in_df` and raises `IndexError`. -/
def convert_headlines_df_to_index (today : Nat) :
    BatchContent → Except RunError (Option (List Row))
  | .malformed => .error .keyError
  | .records [] => .ok none
  | .records (r :: rs) =>
      let filtered := filter_headlines (r :: rs)
      if filtered.isEmpty then .error .indexError
      else .ok (some (drop_today_if_in_df today (format_to_index filtered)))

/-- One batch file: its name, the month its name parses to
(`_file_to_dtime`, as the first day of that month) and its parsed content. -/
structure BatchFile where
  name : String
  month : Nat
  content : BatchContent
deriving DecidableEq, Repr

/-- Lexicographic comparison of character lists by code point, the order
Python's `sorted` uses on strings. -/
def lexLe : List Char → List Char → Bool
  | [], _ => true
  | _ :: _, [] => false
  | a :: as, b :: bs => if a < b then true else if a = b then lexLe as bs else false

/-- String comparison by code points (Python `str` ordering). -/
def strLe (a b : String) : Bool := lexLe a.data b.data

/-- Python `sorted(os.listdir(input_folder))`: files in name order. -/
def sortFiles (fs : List BatchFile) : List BatchFile :=
  fs.insertionSort (fun a b => strLe a.name b.name = true)

deriving instance DecidableEq for Except

/-- Model of `_file_to_dtime`: the first day of the month named by the file. -/
def file_to_dtime (f : BatchFile) : Nat := f.month

/-- The accumulation loop of `create_sentiment_index`: convert each batch in
order, skip `None` results, append each slice to the store; an uncaught
exception aborts the run. -/
def runBatches (today : Nat) : List BatchFile → Except RunError (List Row)
  | [] => .ok []
  | f :: fs => do
      let s ← convert_headlines_df_to_index today f.content
      let rest ← runBatches today fs
      match s with
      | none => pure rest
      | some slice => pure (slice ++ rest)

/-- pandas `ewm(span=100)` decay factor `alpha = 2/(span+1)`. -/
def EWM_ALPHA : ℚ := 2 / 101

/-- Accumulator loop of pandas `ewm(alpha).mean()` with the default
`adjust=True`: `num` and `den` carry the decayed weighted sum and weight. -/
def ewm_mean_aux (a num den : ℚ) : List ℚ → List ℚ
  | [] => []
  | x :: xs =>
      let num := (1 - a) * num + x
      let den := (1 - a) * den + 1
      num / den :: ewm_mean_aux a num den xs

/-- Pandas `Series.ewm(alpha).mean()` (adjust=True). -/
def ewm_mean (a : ℚ) (xs : List ℚ) : List ℚ := ewm_mean_aux a 0 0 xs

/-- Pandas `rolling(w).mean()` (no `min_periods`) at position `i` of a fully
defined series: `none` for the first `w - 1` positions. -/
def rolling_mean (w : Nat) (xs : List ℚ) (i : Nat) : Option ℚ :=
  if i + 1 < w then none
  else some (((xs.take (i + 1)).drop (i + 1 - w)).sum / (w : ℚ))

/-- Trend window of the `newsindex` revision of `__calculate_smoothed_index`. -/
def SEVEN_YEARS : Nat := 365 * 7

/-- Trend window of the `src` revision of `__calculate_smoothed_index`. -/
def TEN_YEARS : Nat := 365 * 10

/-- Model of `__calculate_smoothed_index` with trend window `w`:
`ewm(span=100).mean() - rolling(w).mean() + 0.5`, `none` where the pandas
rolling mean is NaN. -/
def calculate_smoothed_index (w : Nat) (xs : List ℚ) : List (Option ℚ) :=
  (List.range xs.length).map (fun i =>
    (rolling_mean w xs i).map
      (fun t => (ewm_mean EWM_ALPHA xs).getD i 0 - t + 1 / 2))

/-- A persisted store row: a dense row plus the smoothed/detrended column. -/
structure RowS extends Row where
  smoothed_index_value : Option ℚ
deriving DecidableEq, Repr

/-- Model of `add_smoothed_col_to_index_df` applied to a loaded store: keep the five
base columns and recompute the smoothed column over the full series (the
current revision uses the 7-year trend window). -/
def add_smoothed_col_to_index_df (base : List Row) : List RowS :=
  List.zipWith (fun r s => { toRow := r, smoothed_index_value := s }) base
    (calculate_smoothed_index SEVEN_YEARS (base.map (fun r => r.index_value)))

/-- Model of `create_sentiment_index`: fresh store, every file of the folder in name
order through the batch pipeline, then the smoothed column over the result. -/
def create_sentiment_index (today : Nat) (files : List BatchFile) :
    Except RunError (List RowS) :=
  (runBatches today (sortFiles files)).map add_smoothed_col_to_index_df

/-- The accumulation loop of `append_sentiment_index`: each selected batch is
converted, truncated to `date >= append_start` (`df.loc[append_start:]`) and
appended. -/
def appendBatches (today appendStart : Nat) :
    List BatchFile → Except RunError (List Row)
  | [] => .ok []
  | f :: fs => do
      let s ← convert_headlines_df_to_index today f.content
      let rest ← appendBatches today appendStart fs
      match s with
      | none => pure rest
      | some slice => pure (slice.filter (fun r => appendStart ≤ r.day) ++ rest)

/-- Model of `files_missing_in_index`: name-sorted folder listing, keep only names
ending in `".csv"`, keep only files whose parsed month is at or after the
first day (`cal`) of `append_start`'s month. -/
def files_missing_in_index (cal : Nat → Nat) (files : List BatchFile)
    (appendStart : Nat) : List BatchFile :=
  ((sortFiles files).filter (fun f => strEndsWith f.name ".csv")).filter
    (fun f => cal appendStart ≤ file_to_dtime f)

/-- Model of `append_sentiment_index`: read the store (its five base columns), fail
with `IndexError` when it is empty (`index_df.index[-1]`), otherwise append
the truncated slices of the selected files and recompute the smoothed column
over the merged series. -/
def append_sentiment_index (cal : Nat → Nat) (today : Nat)
    (files : List BatchFile) (store : List RowS) :
    Except RunError (List RowS) :=
  let base := store.map (fun r => r.toRow)
  match base.getLast? with
  | none => .error .indexError
  | some last => do
      let appendStart := last.day + 1
      let newRows ← appendBatches today appendStart
        (files_missing_in_index cal files appendStart)
      pure (add_smoothed_col_to_index_df (base ++ newRows))

/-! Specification-side notions used to state the claims. -/

/-- A calendar day is *residual* for a sparse series when its index value is
still undefined after the `fillna(sma)` step of `__resample_to_day`: the day
is absent (or had an undefined raw value) and the forward-filled trailing
mean at that day is itself undefined, so the final `fillna(0)` writes 0. -/
def isResidual (raw : List RawRow) (d : Nat) : Bool :=
  (origIndexAt raw d).isNone && (dailySma raw d).isNone

/-- The causal exponentially weighted moving average with decay factor `a`:
the weight of the value `j` positions in the past is `(1-a)^(i-j)`,
normalized by the total weight (pandas `adjust=True`). -/
def emaSpec (a : ℚ) (xs : List ℚ) (i : Nat) : ℚ :=
  (∑ j ∈ Finset.range (i + 1), (1 - a) ^ (i - j) * xs.getD j 0) /
    (∑ j ∈ Finset.range (i + 1), (1 - a) ^ (i - j))

/-- The trailing simple moving average over the `w` positions ending at `i`. -/
def smaSpec (w : Nat) (xs : List ℚ) (i : Nat) : ℚ :=
  (∑ j ∈ Finset.Ico (i + 1 - w) (i + 1), xs.getD j 0) / (w : ℚ)

/-- Decayed weighted sum carried by the `num` accumulator of
`ewm_mean_aux` after consuming `ys`. -/
def ewmNum (a : ℚ) (ys : List ℚ) : ℚ :=
  ∑ j ∈ Finset.range ys.length, (1 - a) ^ (ys.length - 1 - j) * ys.getD j 0

/-- Decayed weight total carried by the `den` accumulator of
`ewm_mean_aux` after consuming `n` values. -/
def ewmDen (a : ℚ) (n : Nat) : ℚ :=
  ∑ t ∈ Finset.range n, (1 - a) ^ t

/-! Concrete inputs used by counterexamples and witnesses. -/

/-- An in-scope positive headline on day 5, in a January batch file. -/
def c1_file1 : BatchFile :=
  ⟨"2022-01.csv", 0, .records [⟨5, "a b c", "Economics", "Positive"⟩]⟩

/-- An in-scope negative headline on day 36, in a February batch file:
its slice starts 31 days after `c1_file1`'s slice ends. -/
def c1_file2 : BatchFile :=
  ⟨"2022-02.csv", 30, .records [⟨36, "a b c", "Economics", "Negative"⟩]⟩

/-- A witness batch for C2: day 1 carries two positive and one neutral
in-scope headlines, day 3 one negative; one row is off-topic and one has a
two-word headline, so both are filtered out. -/
def c2_recs : List HeadlineRecord :=
  [⟨1, "up up up", "Economics", "Positive"⟩,
   ⟨1, "good day here", "Economics", "Positive"⟩,
   ⟨1, "flat day here", "Economics", "Neutral"⟩,
   ⟨1, "too short", "Economics", "Positive"⟩,
   ⟨1, "off topic story", "Other", "Positive"⟩,
   ⟨3, "down down down", "Economics", "Negative"⟩]

/-- A sparse series of 366 consecutive days: day 0 has a defined index value
(1) and days 1–365 are all-neutral days with undefined index values, so the
365-observation window ending at the last observation holds no defined
value. -/
def c3_ex : List RawRow :=
  ⟨0, 0, 0, 1, 1, some 1⟩ :: (List.range' 1 365).map (fun i => ⟨i, 0, 1, 0, 1, none⟩)

/-- A two-row sparse series (days 0 and 2, day 2 all-neutral) used to
instantiate the resampler contract. -/
def c3_small : List RawRow :=
  [⟨0, 0, 0, 1, 1, some 1⟩, ⟨2, 0, 1, 0, 1, none⟩]

/-- A two-value index column used to instantiate the smoothing formula. -/
def c4_xs : List ℚ := [1, 0]

/-- A batch file whose name does not end in `".csv"`: the full rebuild
processes it, the incremental append never selects it. -/
def c5_txtFile : BatchFile :=
  ⟨"2022-02.txt", 30, .records [⟨36, "a b c", "Economics", "Negative"⟩]⟩

/-- The base rows contributed by `c1_file1` (one positive headline, day 5). -/
def c5_base1 : List Row :=
  [denseRow (formatRaw (filter_headlines [⟨5, "a b c", "Economics", "Positive"⟩])) 5]

/-- The base rows contributed by `c1_file2` (one negative headline, day 36). -/
def c5_base2 : List Row :=
  [denseRow (formatRaw (filter_headlines [⟨36, "a b c", "Economics", "Negative"⟩])) 36]

/-- The last persisted row after rebuilding over `c1_file1` alone. -/
def c5_rl : Row :=
  denseRow (formatRaw (filter_headlines [⟨5, "a b c", "Economics", "Positive"⟩])) 5

/-- A 30-day-month calendar: the first day of the month containing `d`. -/
def cal30 : Nat → Nat := fun d => 30 * (d / 30)

/-- A one-row persisted store used to instantiate the append frame
property. -/
def c6_store : List RowS := [⟨⟨5, 0, 0, 1, 1, 1⟩, none⟩]

/-- A malformed batch file (required columns missing). -/
def c7_badFile : BatchFile := ⟨"2022-02.csv", 30, .malformed⟩

/-- A batch that parses but whose only record is off-topic, so filtering
leaves nothing in scope. -/
def c8_emptyAfterFilter : BatchFile :=
  ⟨"2022-01.csv", 0, .records [⟨1, "a b c", "Other", "Positive"⟩]⟩

/-- A second, well-formed batch following `c8_emptyAfterFilter`. -/
def c8_goodFile : BatchFile :=
  ⟨"2022-02.csv", 30, .records [⟨36, "a b c", "Economics", "Positive"⟩]⟩

/-- Two batch files that both contribute a row for day 5. -/
def c9_file1 : BatchFile :=
  ⟨"a.csv", 0, .records [⟨5, "a b c", "Economics", "Positive"⟩]⟩

/-- Second of the two day-5 overlapping batch files. -/
def c9_file2 : BatchFile :=
  ⟨"b.csv", 0, .records [⟨5, "a b c", "Economics", "Negative"⟩]⟩

/-- The slice contributed by `c9_file1` (one positive headline on day 5). -/
def c9_slice1 : List Row :=
  drop_today_if_in_df 1000
    (format_to_index (filter_headlines [⟨5, "a b c", "Economics", "Positive"⟩]))

/-- The slice contributed by `c9_file2` (one negative headline on day 5). -/
def c9_slice2 : List Row :=
  drop_today_if_in_df 1000
    (format_to_index (filter_headlines [⟨5, "a b c", "Economics", "Negative"⟩]))

/-! ### Helper lemmas -/

theorem exceptBindOk {ε α β : Type} (a : α) (f : α → Except ε β) :
    (Except.ok a >>= f) = f a := rfl

theorem exceptBindErr {ε α β : Type} (e : ε) (f : α → Except ε β) :
    ((Except.error e : Except ε α) >>= f) = Except.error e := rfl

theorem exceptPureEq {ε α : Type} (a : α) : (pure a : Except ε α) = Except.ok a := rfl

theorem exceptMapOk {ε α β : Type} (f : α → β) (a : α) :
    (Except.ok a : Except ε α).map f = Except.ok (f a) := rfl

theorem denseRow_day (raw : List RawRow) (d : Nat) : (denseRow raw d).day = d := by
  unfold denseRow
  cases origRow raw d <;> rfl

theorem chain_succ_range' (a n : Nat) :
    (List.range' a n).Chain' (fun x y => y = x + 1) := by
  induction n generalizing a with
  | zero => simp
  | succ n ih =>
      rw [List.range'_succ]
      rcases n with _ | m
      · simp
      · rw [List.range'_succ]
        exact List.Chain'.cons rfl (by rw [← List.range'_succ]; exact ih (a + 1))

theorem resample_map_day (raw : List RawRow) (r0 r1 : RawRow)
    (hh : raw.head? = some r0) (hl : raw.getLast? = some r1) :
    (resample_to_day raw).map (fun r => r.day)
      = List.range' r0.day (r1.day + 1 - r0.day) := by
  unfold resample_to_day
  rw [hh, hl]
  have hfun : ((fun r : Row => r.day) ∘ fun d => denseRow raw d) = id :=
    funext (fun d => denseRow_day raw d)
  rw [List.map_map, hfun, List.map_id]

/-! ### Claim C1 -/

/-- C1, counterexample: a full rebuild over two well-formed `.csv` batches
whose slices do not abut (day 5 and day 36) succeeds and persists the series
with days `[5, 36]`: consecutive rows 31 days apart, so the persisted series
is not dense. -/
theorem c1_counterexample :
    (create_sentiment_index 1000 [c1_file1, c1_file2]).map
        (fun s => s.map (fun r => r.day)) = .ok [5, 36]
    ∧ ¬(36 = 5 + 1) := ⟨by decide, by decide⟩

/-- C1, amended: within the slice produced for one batch by
`__resample_to_day`, consecutive rows' dates differ by exactly one calendar
day; the concatenated persisted series is dense only when consecutive batch
slices abut, which neither `create_sentiment_index` nor
`append_sentiment_index` enforces. -/
theorem c1_slice_density (raw : List RawRow) :
    ((resample_to_day raw).map (fun r => r.day)).Chain' (fun a b => b = a + 1) := by
  unfold resample_to_day
  have hfun : ((fun r : Row => r.day) ∘ fun d => denseRow raw d) = id :=
    funext (fun d => denseRow_day raw d)
  cases hh : raw.head? <;> cases hl : raw.getLast? <;> simp
  rw [hfun, List.map_id]
  exact chain_succ_range' _ _

/-! ### Claim C2 -/

/-- C2: every sparse row built by `_format_to_index` before resampling has
`total = negative + neutral + positive`; when `positive + negative = 0` its
index value is the undefined marker (distinct from 0), and otherwise it is
`(positive - negative) / (positive + negative)`. -/
theorem c2_total_and_index (rs : List HeadlineRecord) (r : RawRow)
    (hr : r ∈ formatRaw rs) :
    r.total = r.negative + r.neutral + r.positive
    ∧ (r.positive + r.negative = 0 → r.index_value = none ∧ r.index_value ≠ some 0)
    ∧ (0 < r.positive + r.negative →
        r.index_value = some (((r.positive : ℚ) - (r.negative : ℚ)) /
          ((r.positive : ℚ) + (r.negative : ℚ)))) := by
  simp only [formatRaw, List.mem_map] at hr
  obtain ⟨c, -, rfl⟩ := hr
  refine ⟨rfl, fun h => ?_, fun h => ?_⟩
  · simp [rawIndexValue, h]
  · simp [rawIndexValue, Nat.pos_iff_ne_zero.mp h]

/-- C2, witness at the day-1 aggregate of `c2_recs` (2 positive, 1 neutral,
0 negative): `total = 3` and `index_value = (2 - 0) / (2 + 0)`. -/
theorem c2_total_and_index_witness :
    (⟨1, 0, 1, 2, 3, rawIndexValue 0 2⟩ : RawRow) ∈ formatRaw (filter_headlines c2_recs)
    ∧ ((3 : Nat) = 0 + 1 + 2
      ∧ ((2 + 0 = 0 → rawIndexValue 0 2 = none ∧ rawIndexValue 0 2 ≠ some 0))
      ∧ (0 < 2 + 0 →
          rawIndexValue 0 2 = some ((((2 : Nat) : ℚ) - ((0 : Nat) : ℚ)) /
            (((2 : Nat) : ℚ) + ((0 : Nat) : ℚ))))) :=
  ⟨List.mem_map_of_mem _
      (by decide :
        (⟨1, 0, 1, 2⟩ : DayCounts) ∈ count_num_labels_per_day (filter_headlines c2_recs)),
   c2_total_and_index (filter_headlines c2_recs) _ (List.mem_map_of_mem _
      (by decide :
        (⟨1, 0, 1, 2⟩ : DayCounts) ∈ count_num_labels_per_day (filter_headlines c2_recs)))⟩

/-! ### Claim C7 -/

/-- C7, counterexample: a full rebuild over a well-formed batch followed by a
malformed batch (missing required columns) aborts with the uncaught
`KeyError` instead of skipping the malformed batch and continuing. -/
theorem c7_counterexample :
    create_sentiment_index 1000 [c1_file1, c7_badFile] = .error .keyError := by
  decide

/-- C7, amended: only a batch with no rows at all is skipped — silently, via
the caught `AttributeError`, with no warning — and the run continues exactly
as if the batch were absent; a batch whose required columns are missing
raises an uncaught `KeyError`, which aborts the whole run. -/
theorem c7_malformed_aborts (today mo : Nat) (nm : String) (fs₁ fs₂ : List BatchFile) :
    runBatches today (fs₁ ++ (⟨nm, mo, .records []⟩ : BatchFile) :: fs₂)
      = runBatches today (fs₁ ++ fs₂)
    ∧ (∀ fs : List BatchFile, (⟨nm, mo, .malformed⟩ : BatchFile) ∈ fs →
        ∃ e, runBatches today fs = .error e) := by
  constructor
  · induction fs₁ with
    | nil =>
        show runBatches today ((⟨nm, mo, .records []⟩ : BatchFile) :: fs₂) = _
        cases h : runBatches today fs₂ <;>
          simp [runBatches, convert_headlines_df_to_index, h, exceptBindOk, exceptBindErr,
            exceptPureEq]
    | cons f fs ih =>
        cases hc : convert_headlines_df_to_index today f.content <;>
          simp [runBatches, hc, ih, exceptBindOk, exceptBindErr]
  · intro fs hmem
    induction fs with
    | nil => cases hmem
    | cons f fs ih =>
        rcases List.mem_cons.mp hmem with h | h
        · exact ⟨.keyError, by
            simp [← h, runBatches, convert_headlines_df_to_index, exceptBindErr]⟩
        · obtain ⟨e, he⟩ := ih h
          cases hc : convert_headlines_df_to_index today f.content with
          | error e₂ => exact ⟨e₂, by simp [runBatches, hc, exceptBindErr]⟩
          | ok s => exact ⟨e, by simp [runBatches, hc, he, exceptBindOk, exceptBindErr]⟩

/-- C7, witness: inserting an empty batch between two runs changes nothing,
and a run whose folder contains a malformed batch errors out. -/
theorem c7_malformed_aborts_witness :
    runBatches 1000 ([c1_file1] ++ (⟨"2022-03.csv", 60, .records []⟩ : BatchFile) :: [])
      = runBatches 1000 ([c1_file1] ++ [])
    ∧ ∃ e, runBatches 1000 [(⟨"2022-03.csv", 60, .malformed⟩ : BatchFile)] = .error e :=
  ⟨(c7_malformed_aborts 1000 60 "2022-03.csv" [c1_file1] []).1,
   (c7_malformed_aborts 1000 60 "2022-03.csv" [c1_file1] []).2 _ (by decide)⟩

/-! ### Claim C8 -/

/-- C8, counterexample: a batch that parses but has zero in-scope records
(its only record is off-topic) does not yield a "no data" sentinel — the
run aborts with the uncaught `IndexError` from `df.index[-1]` in
`_drop_today_if_in_df`, and the following well-formed batch is never
processed. -/
theorem c8_counterexample :
    create_sentiment_index 1000 [c8_emptyAfterFilter, c8_goodFile]
      = .error .indexError := by
  decide

/-- C8, amended: only a batch with no rows at all produces the `None`
sentinel (via the caught `AttributeError`); a batch that parses into records
but filters down to zero in-scope rows raises an uncaught `IndexError` and
aborts the run. -/
theorem c8_filtered_empty_aborts (today : Nat) (rs : List HeadlineRecord) :
    (rs ≠ [] → filter_headlines rs = [] →
      convert_headlines_df_to_index today (.records rs) = .error .indexError)
    ∧ convert_headlines_df_to_index today (.records []) = .ok none := by
  refine ⟨fun hne hf => ?_, rfl⟩
  cases rs with
  | nil => exact absurd rfl hne
  | cons r rs => simp [convert_headlines_df_to_index, hf]

/-- C8, witness at a one-record off-topic batch. -/
theorem c8_filtered_empty_aborts_witness :
    ([⟨1, "a b c", "Other", "Positive"⟩] : List HeadlineRecord) ≠ []
    ∧ filter_headlines [⟨1, "a b c", "Other", "Positive"⟩] = []
    ∧ convert_headlines_df_to_index 1000
        (.records [⟨1, "a b c", "Other", "Positive"⟩]) = .error .indexError :=
  ⟨by decide, by decide,
   (c8_filtered_empty_aborts 1000 [⟨1, "a b c", "Other", "Positive"⟩]).1
     (by decide) (by decide)⟩

/-! ### Claim C9 -/

/-- C9, counterexample: a full rebuild over two batches that both contribute
day 5 succeeds (no data-integrity condition is surfaced) and persists two
rows with the same date. -/
theorem c9_counterexample :
    (create_sentiment_index 1000 [c9_file1, c9_file2]).map
      (fun s => s.map (fun r => r.day)) = .ok [5, 5] := by
  decide

/-- C9, amended: the full-rebuild controller concatenates every slice
unconditionally — overlapping rows are neither detected, nor dropped, nor
overwritten: both duplicate-date rows are silently retained and the run
reports success. -/
theorem c9_overlap_kept (today : Nat) (f1 f2 : BatchFile) (s1 s2 : List Row)
    (hn : strLe f1.name f2.name = true)
    (h1 : convert_headlines_df_to_index today f1.content = .ok (some s1))
    (h2 : convert_headlines_df_to_index today f2.content = .ok (some s2)) :
    create_sentiment_index today [f1, f2]
      = .ok (add_smoothed_col_to_index_df (s1 ++ s2)) := by
  have hs : sortFiles [f1, f2] = [f1, f2] := by
    simp [sortFiles, List.insertionSort, List.orderedInsert, hn]
  simp [create_sentiment_index, hs, runBatches, h1, h2, exceptBindOk, exceptPureEq,
    Except.map]

/-- C9, witness at the two day-5 overlapping batches. -/
theorem c9_overlap_kept_witness :
    strLe c9_file1.name c9_file2.name = true
    ∧ convert_headlines_df_to_index 1000 c9_file1.content = .ok (some c9_slice1)
    ∧ convert_headlines_df_to_index 1000 c9_file2.content = .ok (some c9_slice2)
    ∧ create_sentiment_index 1000 [c9_file1, c9_file2]
        = .ok (add_smoothed_col_to_index_df (c9_slice1 ++ c9_slice2)) :=
  ⟨by decide, rfl, rfl,
   c9_overlap_kept 1000 c9_file1 c9_file2 c9_slice1 c9_slice2 (by decide) rfl rfl⟩

/-! ### Claim C3 -/

set_option maxRecDepth 8000 in
/-- C3, counterexample: in the 366-day series `c3_ex` the first day (0) has
a defined index value, yet day 365 is residual — its raw index value is
undefined and the 365-observation trailing window ending at its position
holds no defined observation — so residual (default-to-0) days are not
confined to the very first day(s) of the series. -/
theorem c3_counterexample :
    c3_ex.head?.map (fun r => r.day) = some 0
    ∧ c3_ex.getLast?.map (fun r => r.day) = some 365
    ∧ isResidual c3_ex 365 = true
    ∧ isResidual c3_ex 0 = false := by
  exact ⟨rfl, by decide, by decide, by decide⟩

/-- C3, amended: `__resample_to_day` returns a dense series spanning the
sparse series' first to last day; a day absent from the sparse series gets
all-zero counts, a present day keeps its counts and total; every output
index value is defined: the sparse value when it exists, otherwise the
forward-filled trailing 365-observation mean, otherwise (residual days,
which need not be initial) the default 0. -/
theorem c3_resample_spec (raw : List RawRow) (r0 r1 : RawRow)
    (hh : raw.head? = some r0) (hl : raw.getLast? = some r1) :
    ((resample_to_day raw).map (fun r => r.day)
        = List.range' r0.day (r1.day + 1 - r0.day))
    ∧ (∀ r ∈ resample_to_day raw,
        (origRow raw r.day = none →
          r.negative = 0 ∧ r.neutral = 0 ∧ r.positive = 0 ∧ r.total = 0)
        ∧ (∀ x, origRow raw r.day = some x →
            r.negative = (x.negative : ℚ) ∧ r.neutral = (x.neutral : ℚ)
              ∧ r.positive = (x.positive : ℚ) ∧ r.total = (x.total : ℚ))
        ∧ r.index_value = (origIndexAt raw r.day).getD ((dailySma raw r.day).getD 0)) := by
  refine ⟨resample_map_day raw r0 r1 hh hl, ?_⟩
  intro r hr
  unfold resample_to_day at hr
  rw [hh, hl] at hr
  obtain ⟨d, hd, rfl⟩ := List.mem_map.mp hr
  rw [denseRow_day raw d]
  refine ⟨fun hnone => ?_, fun x hx => ?_, ?_⟩
  · simp [denseRow, hnone]
  · simp [denseRow, hx]
  · cases horig : origRow raw d with
    | none => simp [denseRow, origIndexAt, horig]
    | some x => cases hxi : x.index_value <;> simp [denseRow, origIndexAt, horig, hxi]

/-- C3, witness at the two-row series `c3_small` (days 0 and 2, day 2
undefined). -/
theorem c3_resample_spec_witness :
    c3_small.head? = some ⟨0, 0, 0, 1, 1, some 1⟩
    ∧ c3_small.getLast? = some ⟨2, 0, 1, 0, 1, none⟩
    ∧ (((resample_to_day c3_small).map (fun r => r.day)
        = List.range' (⟨0, 0, 0, 1, 1, some 1⟩ : RawRow).day
            ((⟨2, 0, 1, 0, 1, none⟩ : RawRow).day + 1
              - (⟨0, 0, 0, 1, 1, some 1⟩ : RawRow).day))
      ∧ (∀ r ∈ resample_to_day c3_small,
          (origRow c3_small r.day = none →
            r.negative = 0 ∧ r.neutral = 0 ∧ r.positive = 0 ∧ r.total = 0)
          ∧ (∀ x, origRow c3_small r.day = some x →
              r.negative = (x.negative : ℚ) ∧ r.neutral = (x.neutral : ℚ)
                ∧ r.positive = (x.positive : ℚ) ∧ r.total = (x.total : ℚ))
          ∧ r.index_value
              = (origIndexAt c3_small r.day).getD ((dailySma c3_small r.day).getD 0))) :=
  ⟨rfl, rfl, c3_resample_spec c3_small _ _ rfl rfl⟩

/-! ### Claim C4 -/

theorem take_append_len {α : Type} (l₁ l₂ : List α) (n : Nat) :
    (l₁ ++ l₂).take (l₁.length + n) = l₁ ++ l₂.take n := by
  induction l₁ with
  | nil => simp
  | cons a l ih => simp [List.take_succ_cons, Nat.succ_add, ih]

theorem getD_take_of_lt {α : Type} (xs : List α) :
    ∀ (m j : Nat), j < m → ∀ d : α, (xs.take m).getD j d = xs.getD j d := by
  induction xs with
  | nil => simp
  | cons x xs ih =>
      intro m j h d
      cases m with
      | zero => omega
      | succ m =>
          cases j with
          | zero => simp
          | succ j => simpa using ih m j (by omega) d

theorem sum_take_eq (xs : List ℚ) : ∀ m : Nat,
    (xs.take m).sum = ∑ j ∈ Finset.range m, xs.getD j 0 := by
  induction xs with
  | nil => intro m; simp
  | cons x xs ih =>
      intro m
      cases m with
      | zero => simp
      | succ m =>
          rw [List.take_succ_cons, List.sum_cons, ih m, Finset.sum_range_succ']
          simp [add_comm]

theorem sum_drop_take_eq (xs : List ℚ) (k m : Nat) (hk : k ≤ m) :
    ((xs.take m).drop k).sum = ∑ j ∈ Finset.Ico k m, xs.getD j 0 := by
  have h2 : ((xs.take m).take k).sum + ((xs.take m).drop k).sum = (xs.take m).sum := by
    rw [← List.sum_append, List.take_append_drop]
  have h1 : (xs.take m).take k = xs.take k := by
    rw [List.take_take, min_eq_left hk]
  rw [h1, sum_take_eq xs m, sum_take_eq xs k] at h2
  rw [Finset.sum_Ico_eq_sub _ hk]
  linarith

theorem ewmDen_succ (a : ℚ) (n : Nat) : ewmDen a (n + 1) = (1 - a) * ewmDen a n + 1 := by
  unfold ewmDen
  rw [Finset.sum_range_succ']
  simp only [pow_succ, pow_zero]
  rw [← Finset.sum_mul]
  ring

theorem ewmNum_concat (a : ℚ) (ys : List ℚ) (x : ℚ) :
    ewmNum a (ys ++ [x]) = (1 - a) * ewmNum a ys + x := by
  unfold ewmNum
  rw [List.length_append, List.length_singleton, Finset.sum_range_succ]
  have hlast : (ys ++ [x]).getD ys.length 0 = x := by
    rw [List.getD_append_right _ _ _ _ le_rfl]
    simp
  have hstep : ∀ j ∈ Finset.range ys.length,
      (1 - a) ^ (ys.length + 1 - 1 - j) * (ys ++ [x]).getD j 0
        = (1 - a) * ((1 - a) ^ (ys.length - 1 - j) * ys.getD j 0) := by
    intro j hj
    have hj' := Finset.mem_range.mp hj
    rw [List.getD_append _ _ _ _ hj']
    have : ys.length + 1 - 1 - j = (ys.length - 1 - j) + 1 := by omega
    rw [this, pow_succ]
    ring
  rw [Finset.sum_congr rfl hstep, ← Finset.mul_sum, hlast]
  simp

theorem ewm_mean_aux_getD (a : ℚ) :
    ∀ (xs pre : List ℚ) (i : Nat), i < xs.length →
      (ewm_mean_aux a (ewmNum a pre) (ewmDen a pre.length) xs).getD i 0
        = ewmNum a ((pre ++ xs).take (pre.length + i + 1))
            / ewmDen a (pre.length + i + 1) := by
  intro xs
  induction xs with
  | nil => intro pre i hi; simp at hi
  | cons x xs ih =>
      intro pre i hi
      rw [show ewm_mean_aux a (ewmNum a pre) (ewmDen a pre.length) (x :: xs)
            = ((1 - a) * ewmNum a pre + x) / ((1 - a) * ewmDen a pre.length + 1)
              :: ewm_mean_aux a ((1 - a) * ewmNum a pre + x)
                  ((1 - a) * ewmDen a pre.length + 1) xs from rfl]
      rw [← ewmNum_concat a pre x, ← ewmDen_succ a pre.length]
      cases i with
      | zero =>
          rw [List.getD_cons_zero]
          have ht : (pre ++ x :: xs).take (pre.length + 0 + 1) = pre ++ [x] := by
            have := take_append_len pre (x :: xs) 1
            simpa using this
          rw [ht]
      | succ i =>
          rw [List.getD_cons_succ]
          have hlen : (pre ++ [x]).length = pre.length + 1 := by simp
          have := ih (pre ++ [x]) i (by simpa using hi)
          rw [hlen] at this
          rw [this]
          have hx : pre ++ [x] ++ xs = pre ++ x :: xs := by simp
          rw [hx]
          have harith : pre.length + 1 + i + 1 = pre.length + (i + 1) + 1 := by omega
          rw [harith]

theorem ewm_mean_getD (a : ℚ) (xs : List ℚ) (i : Nat) (hi : i < xs.length) :
    (ewm_mean a xs).getD i 0 = ewmNum a (xs.take (i + 1)) / ewmDen a (i + 1) := by
  have h := ewm_mean_aux_getD a xs [] i hi
  have h0 : ewmNum a ([] : List ℚ) = 0 := by simp [ewmNum]
  have h0' : ewmDen a 0 = 0 := by simp [ewmDen]
  simp only [List.length_nil, List.nil_append, Nat.zero_add] at h
  rw [h0, h0'] at h
  simpa [ewm_mean] using h

theorem ewm_mean_eq_emaSpec (a : ℚ) (xs : List ℚ) (i : Nat) (hi : i < xs.length) :
    (ewm_mean a xs).getD i 0 = emaSpec a xs i := by
  rw [ewm_mean_getD a xs i hi]
  unfold emaSpec ewmNum ewmDen
  have hlen : (xs.take (i + 1)).length = i + 1 := by
    rw [List.length_take]
    omega
  rw [hlen]
  congr 1
  · refine Finset.sum_congr rfl (fun j hj => ?_)
    have he : i + 1 - 1 - j = i - j := by omega
    rw [getD_take_of_lt xs (i + 1) j (Finset.mem_range.mp hj) 0, he]
  · exact (Finset.sum_range_reflect (fun t => (1 - a) ^ t) (i + 1)).symm

theorem rolling_mean_eq (w : Nat) (xs : List ℚ) (i : Nat) :
    rolling_mean w xs i = if i + 1 < w then none else some (smaSpec w xs i) := by
  unfold rolling_mean smaSpec
  split
  · rfl
  · rw [sum_drop_take_eq xs (i + 1 - w) (i + 1) (by omega)]

theorem calc_smoothed_getElem (w : Nat) (xs : List ℚ) (i : Nat) (hi : i < xs.length) :
    (calculate_smoothed_index w xs)[i]? =
      some (if i + 1 < w then none
        else some (emaSpec EWM_ALPHA xs i - smaSpec w xs i + 1 / 2)) := by
  unfold calculate_smoothed_index
  rw [List.getElem?_map]
  rw [List.getElem?_range hi]
  simp only [Option.map_some', rolling_mean_eq, ewm_mean_eq_emaSpec EWM_ALPHA xs i hi]
  split <;> rfl

/-- C4: for every position `i` of the dense index column, the smoothed
column of both source revisions is `EMA(span 100) - SMA(window W) + 0.5`,
where the EMA is the causal exponentially weighted mean with decay
`alpha = 2/(100+1)` and `W` is `365*7 = 2555` in the `newsindex` revision and
`365*10 = 3650` in the `src` revision; the value is undefined for the first
`W - 1` rows. -/
theorem c4_smoothed_formula (xs : List ℚ) (i : Nat) (hi : i < xs.length) :
    (calculate_smoothed_index SEVEN_YEARS xs)[i]?
        = some (if i + 1 < SEVEN_YEARS then none
            else some (emaSpec (2 / 101) xs i - smaSpec SEVEN_YEARS xs i + 1 / 2))
    ∧ (calculate_smoothed_index TEN_YEARS xs)[i]?
        = some (if i + 1 < TEN_YEARS then none
            else some (emaSpec (2 / 101) xs i - smaSpec TEN_YEARS xs i + 1 / 2)) :=
  ⟨calc_smoothed_getElem SEVEN_YEARS xs i hi, calc_smoothed_getElem TEN_YEARS xs i hi⟩

/-- C4, witness at position 0 of a two-value column: both revisions yield
the undefined marker there, since `0 + 1 < W`. -/
theorem c4_smoothed_formula_witness :
    0 < c4_xs.length
    ∧ ((calculate_smoothed_index SEVEN_YEARS c4_xs)[0]?
        = some (if 0 + 1 < SEVEN_YEARS then none
            else some (emaSpec (2 / 101) c4_xs 0 - smaSpec SEVEN_YEARS c4_xs 0 + 1 / 2))
      ∧ (calculate_smoothed_index TEN_YEARS c4_xs)[0]?
        = some (if 0 + 1 < TEN_YEARS then none
            else some (emaSpec (2 / 101) c4_xs 0 - smaSpec TEN_YEARS c4_xs 0 + 1 / 2))) :=
  ⟨by decide, c4_smoothed_formula c4_xs 0 (by decide)⟩

/-! ### Claim C6 -/

theorem getElem?_zipWith {α β γ : Type} (f : α → β → γ) :
    ∀ (as : List α) (bs : List β) (i : Nat),
      (List.zipWith f as bs)[i]? =
        match as[i]?, bs[i]? with
        | some a, some b => some (f a b)
        | _, _ => none := by
  intro as
  induction as with
  | nil => intro bs i; cases bs <;> simp
  | cons a as ih =>
      intro bs i
      cases bs with
      | nil => simp
      | cons b bs =>
          cases i with
          | zero => simp
          | succ i => simpa using ih bs i

theorem zipWith_fst_of_le {α β : Type} :
    ∀ (as : List α) (bs : List β), as.length ≤ bs.length →
      List.zipWith (fun a _ => a) as bs = as := by
  intro as
  induction as with
  | nil => intro bs h; rfl
  | cons a as ih =>
      intro bs h
      cases bs with
      | nil => simp at h
      | cons b bs =>
          simp only [List.zipWith_cons_cons, List.cons.injEq, true_and]
          exact ih bs (by simpa using h)

theorem calc_smoothed_length (w : Nat) (xs : List ℚ) :
    (calculate_smoothed_index w xs).length = xs.length := by
  simp [calculate_smoothed_index]

/-- C6: every successful append leaves the `day`, `negative`, `neutral`,
`positive`, `total` and `index_value` columns of every already-persisted row
unchanged: the output row at each persisted position has the same base
`Row`; only `smoothed_index_value` is recomputed. -/
theorem c6_append_preserves (cal : Nat → Nat) (today : Nat) (files : List BatchFile)
    (store out : List RowS)
    (h : append_sentiment_index cal today files store = .ok out)
    (i : Nat) (hi : i < store.length) :
    out[i]?.map (fun r => r.toRow) = store[i]?.map (fun r => r.toRow) := by
  simp only [append_sentiment_index] at h
  split at h
  · cases h
  · rename_i last hlast
    cases hnew : appendBatches today (last.day + 1)
        (files_missing_in_index cal files (last.day + 1)) with
    | error e => rw [hnew, exceptBindErr] at h; cases h
    | ok newRows =>
        rw [hnew, exceptBindOk, exceptPureEq] at h
        cases h
        have hib : i < (store.map (fun r => r.toRow)).length := by simpa using hi
        have hib2 : i < (store.map (fun r => r.toRow) ++ newRows).length := by
          rw [List.length_append]
          omega
        have hsm : i < (calculate_smoothed_index SEVEN_YEARS
            ((store.map (fun r => r.toRow) ++ newRows).map
              (fun r => r.index_value))).length := by
          rw [calc_smoothed_length, List.length_map]
          exact hib2
        unfold add_smoothed_col_to_index_df
        rw [getElem?_zipWith]
        have h1 : (store.map (fun r => r.toRow) ++ newRows)[i]?
            = some ((store.get ⟨i, hi⟩).toRow) := by
          rw [List.getElem?_append, if_pos hib, List.getElem?_map,
            List.getElem?_eq_getElem hi]
          rfl
        obtain ⟨s, hs⟩ : ∃ x, (calculate_smoothed_index SEVEN_YEARS
            ((store.map (fun r => r.toRow) ++ newRows).map
              (fun r => r.index_value)))[i]? = some x :=
          ⟨_, List.getElem?_eq_getElem hsm⟩
        rw [h1, hs]
        simp [List.getElem?_eq_getElem hi]

/-- C6, witness: appending with no new files onto a one-row store keeps the
persisted row's base columns. -/
theorem c6_append_preserves_witness :
    append_sentiment_index cal30 1000 [] c6_store
        = .ok (add_smoothed_col_to_index_df
            (c6_store.map (fun r => r.toRow) ++ []))
    ∧ (0 : Nat) < c6_store.length
    ∧ ((add_smoothed_col_to_index_df
          (c6_store.map (fun r => r.toRow) ++ []))[0]?.map (fun r => r.toRow)
        = c6_store[0]?.map (fun r => r.toRow)) :=
  ⟨rfl, by decide, c6_append_preserves cal30 1000 [] c6_store _ rfl 0 (by decide)⟩

/-! ### Claim C5 -/

theorem runBatches_append_ok (today : Nat) :
    ∀ (as : List BatchFile) {bs : List BatchFile} {x y : List Row},
      runBatches today as = .ok x → runBatches today bs = .ok y →
      runBatches today (as ++ bs) = .ok (x ++ y) := by
  intro as
  induction as with
  | nil =>
      intro bs x y h1 h2
      simp only [runBatches] at h1
      cases h1
      simpa using h2
  | cons g as ih =>
      intro bs x y h1 h2
      simp only [runBatches, List.cons_append, List.append_eq] at h1 ⊢
      cases hc : convert_headlines_df_to_index today g.content with
      | error e => rw [hc, exceptBindErr] at h1; cases h1
      | ok s =>
          rw [hc, exceptBindOk] at h1
          rw [exceptBindOk]
          cases hr : runBatches today as with
          | error e => rw [hr, exceptBindErr] at h1; cases h1
          | ok rest =>
              rw [hr, exceptBindOk] at h1
              rw [ih hr h2, exceptBindOk]
              cases s with
              | none =>
                  simp only [exceptPureEq, Except.ok.injEq] at h1
                  subst h1
                  rfl
              | some slice =>
                  simp only [exceptPureEq, Except.ok.injEq] at h1
                  subst h1
                  simp [exceptPureEq, List.append_assoc]

theorem appendBatches_filter (today app : Nat) :
    ∀ (fs : List BatchFile) {b : List Row}, runBatches today fs = .ok b →
      appendBatches today app fs = .ok (b.filter (fun r => app ≤ r.day)) := by
  intro fs
  induction fs with
  | nil =>
      intro b h
      simp only [runBatches] at h
      cases h
      rfl
  | cons g fs ih =>
      intro b h
      simp only [runBatches] at h
      simp only [appendBatches]
      cases hc : convert_headlines_df_to_index today g.content with
      | error e => rw [hc, exceptBindErr] at h; cases h
      | ok s =>
          rw [hc, exceptBindOk] at h
          rw [exceptBindOk]
          cases hr : runBatches today fs with
          | error e => rw [hr, exceptBindErr] at h; cases h
          | ok rest =>
              rw [hr, exceptBindOk] at h
              rw [ih hr, exceptBindOk]
              cases s with
              | none =>
                  simp only [exceptPureEq, Except.ok.injEq] at h
                  subst h
                  rfl
              | some slice =>
                  simp only [exceptPureEq, Except.ok.injEq] at h
                  subst h
                  simp [exceptPureEq, List.filter_append]

theorem runBatches_ok_forall (today : Nat) :
    ∀ (fs : List BatchFile) {b : List Row}, runBatches today fs = .ok b →
      ∀ f ∈ fs, ∃ o, convert_headlines_df_to_index today f.content = .ok o
        ∧ ∀ s, o = some s → s.Sublist b := by
  intro fs
  induction fs with
  | nil => intro b h f hf; cases hf
  | cons g fs ih =>
      intro b h f hf
      simp only [runBatches] at h
      cases hc : convert_headlines_df_to_index today g.content with
      | error e => rw [hc, exceptBindErr] at h; cases h
      | ok s =>
          rw [hc, exceptBindOk] at h
          cases hr : runBatches today fs with
          | error e => rw [hr, exceptBindErr] at h; cases h
          | ok rest =>
              rw [hr, exceptBindOk] at h
              cases s with
              | none =>
                  simp only [exceptPureEq, Except.ok.injEq] at h
                  subst h
                  rcases List.mem_cons.mp hf with rfl | hf2
                  · exact ⟨none, hc, fun s2 hs2 => by cases hs2⟩
                  · exact ih hr f hf2
              | some slice =>
                  simp only [exceptPureEq, Except.ok.injEq] at h
                  subst h
                  rcases List.mem_cons.mp hf with rfl | hf2
                  · refine ⟨some slice, hc, fun s2 hs2 => ?_⟩
                    cases hs2
                    exact List.sublist_append_left _ _
                  · obtain ⟨o, ho, hsub⟩ := ih hr f hf2
                    exact ⟨o, ho, fun s2 hs2 =>
                      (hsub s2 hs2).trans (List.sublist_append_right _ _)⟩

theorem appendBatches_nil_of (today app : Nat) :
    ∀ (fs : List BatchFile),
      (∀ f ∈ fs, ∃ o, convert_headlines_df_to_index today f.content = .ok o
        ∧ ∀ s, o = some s → s.filter (fun r => app ≤ r.day) = []) →
      appendBatches today app fs = .ok [] := by
  intro fs
  induction fs with
  | nil => intro _; rfl
  | cons g fs ih =>
      intro hall
      obtain ⟨o, ho, hfil⟩ := hall g (List.mem_cons_self g fs)
      simp only [appendBatches]
      rw [ho, exceptBindOk,
        ih (fun f hf => hall f (List.mem_cons_of_mem g hf)), exceptBindOk]
      cases o with
      | none => rfl
      | some s => simp [hfil s rfl, exceptPureEq]

theorem appendBatches_append_ok (today app : Nat) :
    ∀ (as : List BatchFile) {bs : List BatchFile} {x y : List Row},
      appendBatches today app as = .ok x → appendBatches today app bs = .ok y →
      appendBatches today app (as ++ bs) = .ok (x ++ y) := by
  intro as
  induction as with
  | nil =>
      intro bs x y h1 h2
      simp only [appendBatches] at h1
      cases h1
      simpa using h2
  | cons g as ih =>
      intro bs x y h1 h2
      simp only [appendBatches, List.cons_append, List.append_eq] at h1 ⊢
      cases hc : convert_headlines_df_to_index today g.content with
      | error e => rw [hc, exceptBindErr] at h1; cases h1
      | ok s =>
          rw [hc, exceptBindOk] at h1
          rw [exceptBindOk]
          cases hr : appendBatches today app as with
          | error e => rw [hr, exceptBindErr] at h1; cases h1
          | ok rest =>
              rw [hr, exceptBindOk] at h1
              rw [ih hr h2, exceptBindOk]
              cases s with
              | none =>
                  simp only [exceptPureEq, Except.ok.injEq] at h1
                  subst h1
                  rfl
              | some slice =>
                  simp only [exceptPureEq, Except.ok.injEq] at h1
                  subst h1
                  simp [exceptPureEq, List.append_assoc]

theorem addSmoothed_toRow (b : List Row) :
    (add_smoothed_col_to_index_df b).map (fun r => r.toRow) = b := by
  unfold add_smoothed_col_to_index_df
  rw [List.map_zipWith]
  apply zipWith_fst_of_le
  rw [calc_smoothed_length, List.length_map]

/-- C5, counterexample: with a batch file stored under a `.txt` name, the
one-shot rebuild persists days `[5, 36]`, while rebuilding over the first
batch and then appending (the append selection only considers `.csv` names)
persists only `[5]` — the two stores differ. -/
theorem c5_counterexample :
    (create_sentiment_index 1000 [c1_file1, c5_txtFile]).map
        (fun s => s.map (fun r => r.day)) = .ok [5, 36]
    ∧ ((create_sentiment_index 1000 [c1_file1]).bind
        (fun st => append_sentiment_index cal30 1000 [c1_file1, c5_txtFile] st)).map
          (fun s => s.map (fun r => r.day)) = .ok [5]
    ∧ [5, 36] ≠ ([5] : List Nat) :=
  ⟨by decide, by decide, by decide⟩

/-- C5, amended: rebuild/append equivalence holds when every batch file name
ends in `".csv"`, the name-sorted batches are chronologically ordered and
non-overlapping (all days contributed by the first `k` batches are at most
the last persisted day, all later days strictly after it), every batch
converts without error, the month filter admits every later file, and the
first-stage store is non-empty; the stores then agree exactly. -/
theorem c5_rebuild_append_equiv (cal : Nat → Nat) (today : Nat)
    (fs₁ fs₂ : List BatchFile) (base₁ base₂ : List Row) (rl : Row)
    (hsorted : List.Pairwise (fun a b => strLe a.name b.name = true) (fs₁ ++ fs₂))
    (hcsv : ∀ f ∈ fs₁ ++ fs₂, strEndsWith f.name ".csv" = true)
    (h1 : runBatches today fs₁ = .ok base₁)
    (h2 : runBatches today fs₂ = .ok base₂)
    (hlast : base₁.getLast? = some rl)
    (hb1 : ∀ r ∈ base₁, r.day ≤ rl.day)
    (hb2 : ∀ r ∈ base₂, rl.day + 1 ≤ r.day)
    (hmonth : ∀ f ∈ fs₂, cal (rl.day + 1) ≤ f.month) :
    create_sentiment_index today fs₁ = .ok (add_smoothed_col_to_index_df base₁)
    ∧ create_sentiment_index today (fs₁ ++ fs₂)
        = .ok (add_smoothed_col_to_index_df (base₁ ++ base₂))
    ∧ append_sentiment_index cal today (fs₁ ++ fs₂)
          (add_smoothed_col_to_index_df base₁)
        = .ok (add_smoothed_col_to_index_df (base₁ ++ base₂)) := by
  have hs1 : sortFiles fs₁ = fs₁ :=
    List.Sorted.insertionSort_eq (hsorted.sublist (List.sublist_append_left fs₁ fs₂))
  have hsall : sortFiles (fs₁ ++ fs₂) = fs₁ ++ fs₂ :=
    List.Sorted.insertionSort_eq hsorted
  have hall : runBatches today (fs₁ ++ fs₂) = .ok (base₁ ++ base₂) :=
    runBatches_append_ok today fs₁ h1 h2
  refine ⟨?_, ?_, ?_⟩
  · unfold create_sentiment_index
    rw [hs1, h1]
    rfl
  · unfold create_sentiment_index
    rw [hsall, hall]
    rfl
  · simp only [append_sentiment_index, addSmoothed_toRow, hlast]
    have hfm : files_missing_in_index cal (fs₁ ++ fs₂) (rl.day + 1)
        = fs₁.filter (fun f => cal (rl.day + 1) ≤ file_to_dtime f) ++ fs₂ := by
      unfold files_missing_in_index
      rw [hsall, List.filter_eq_self.mpr hcsv, List.filter_append]
      congr 1
      exact List.filter_eq_self.mpr (fun f hf => by simpa using hmonth f hf)
    have happ1 : appendBatches today (rl.day + 1)
        (fs₁.filter (fun f => cal (rl.day + 1) ≤ file_to_dtime f)) = .ok [] := by
      apply appendBatches_nil_of
      intro f hf
      obtain ⟨o, ho, hsub⟩ :=
        runBatches_ok_forall today fs₁ h1 f (List.mem_of_mem_filter hf)
      refine ⟨o, ho, fun s hs => ?_⟩
      rw [List.filter_eq_nil_iff]
      intro r hr
      have hd := hb1 r ((hsub s hs).subset hr)
      simp only [decide_eq_true_eq]
      omega
    have happ2 : appendBatches today (rl.day + 1) fs₂ = .ok base₂ := by
      have hf := appendBatches_filter today (rl.day + 1) fs₂ h2
      rwa [List.filter_eq_self.mpr (fun r hr => by simpa using hb2 r hr)] at hf
    rw [hfm, appendBatches_append_ok today (rl.day + 1) _ happ1 happ2, exceptBindOk]
    simp [exceptPureEq]

/-- C5, witness at the two chronological `.csv` batches (days 5 and 36). -/
theorem c5_rebuild_append_equiv_witness :
    List.Pairwise (fun a b => strLe a.name b.name = true) ([c1_file1] ++ [c1_file2])
    ∧ (∀ f ∈ [c1_file1] ++ [c1_file2], strEndsWith f.name ".csv" = true)
    ∧ runBatches 1000 [c1_file1] = .ok c5_base1
    ∧ runBatches 1000 [c1_file2] = .ok c5_base2
    ∧ c5_base1.getLast? = some c5_rl
    ∧ (∀ r ∈ c5_base1, r.day ≤ c5_rl.day)
    ∧ (∀ r ∈ c5_base2, c5_rl.day + 1 ≤ r.day)
    ∧ (∀ f ∈ [c1_file2], cal30 (c5_rl.day + 1) ≤ f.month)
    ∧ (create_sentiment_index 1000 [c1_file1]
          = .ok (add_smoothed_col_to_index_df c5_base1)
      ∧ create_sentiment_index 1000 ([c1_file1] ++ [c1_file2])
          = .ok (add_smoothed_col_to_index_df (c5_base1 ++ c5_base2))
      ∧ append_sentiment_index cal30 1000 ([c1_file1] ++ [c1_file2])
            (add_smoothed_col_to_index_df c5_base1)
          = .ok (add_smoothed_col_to_index_df (c5_base1 ++ c5_base2))) :=
  ⟨by decide, by decide, rfl, rfl, rfl, by decide, by decide, by decide,
   c5_rebuild_append_equiv cal30 1000 [c1_file1] [c1_file2] c5_base1 c5_base2 c5_rl
     (by decide) (by decide) rfl rfl rfl (by decide) (by decide) (by decide)⟩

/-! ### Claim C10 -/

/-- C10: the incremental append considers only files whose names end in
`".csv"` (and whose parsed month is at or after the month start of the
append date), while the full rebuild iterates over every file of the folder
regardless of extension. -/
theorem c10_append_only_csv (cal : Nat → Nat) (d : Nat) (files : List BatchFile)
    (f : BatchFile) (hf : f ∈ files) :
    f ∈ sortFiles files
    ∧ (f ∈ files_missing_in_index cal files d ↔
        (strEndsWith f.name ".csv" = true ∧ cal d ≤ file_to_dtime f)) := by
  have hmem : f ∈ sortFiles files :=
    (List.perm_insertionSort _ files).mem_iff.mpr hf
  refine ⟨hmem, ?_⟩
  unfold files_missing_in_index
  simp [List.mem_filter, hmem, and_comm]

/-- C10, witness: the `.txt` batch file is in the rebuild's iteration list
but excluded from the append selection (its month is in range, only the
extension check fails). -/
theorem c10_append_only_csv_witness :
    c5_txtFile ∈ [c1_file1, c5_txtFile]
    ∧ (c5_txtFile ∈ sortFiles [c1_file1, c5_txtFile]
      ∧ (c5_txtFile ∈ files_missing_in_index cal30 [c1_file1, c5_txtFile] 6 ↔
          (strEndsWith c5_txtFile.name ".csv" = true
            ∧ cal30 6 ≤ file_to_dtime c5_txtFile))) :=
  ⟨by decide, c10_append_only_csv cal30 6 [c1_file1, c5_txtFile] c5_txtFile (by decide)⟩

end NewsIndex
